import Mathlib

/-!
Verification of the Duck Machine DM2018S simulator: the 32-bit instruction
codec (`instr_format.py`), the CPU fetch/decode/execute engine (`cpu.py`),
and the two-pass assembler (`assembler_pass1.py`).

Machine integers are embedded as `Nat`/`Int` with explicit `%` where the
source masks bits.  Python's `//` and `%` on ints agree with Lean's `Int`
division and modulus (both Euclidean for the positive power-of-two divisors
used here), and Python's `x >> k` / `x & (2^w - 1)` are realised as
`x / 2^k` / `x % 2^w`.  Fallible Python code (raised exceptions) is embedded
with `Except`.
-/

namespace DuckMachine

/-! ## Bit codec (`bitfield.py`)

`bitfield.py` is not part of the sources; it is modelled from the spec. -/

/-- Modelled from the spec: a `BitField` from `bitfield.py` (not under `src/`)
is a fixed inclusive bit range `[lo, hi]`, bit 0 least significant. -/
structure BitField where
  lo : Nat
  hi : Nat

/-- Width in bits of the field. -/
def BitField.width (f : BitField) : Nat := f.hi - f.lo + 1

/-- Modelled from the spec: `extract(word)` shifts right by `lo` and masks to
`hi - lo + 1` bits.  Shift and mask are realised arithmetically as division
and modulus by powers of two, which agrees with Python's `>>` and `&` on
arbitrary ints. -/
def BitField.extract (f : BitField) (word : Int) : Nat :=
  ((word / (2 ^ f.lo : Int)) % (2 ^ f.width : Int)).toNat

/-- Modelled from the spec: `extract_signed(word)` extracts the field and
sign-extends, treating the field's top bit as the sign. -/
def BitField.extract_signed (f : BitField) (word : Int) : Int :=
  let x := f.extract word
  if 2 ^ (f.width - 1) ≤ x then (x : Int) - 2 ^ f.width else (x : Int)

/-- Modelled from the spec: `insert(value, word)` masks `value` to the field
width, clears the field's bits in `word`, and ORs the new bits into position;
all other bits of `word` are preserved.  Clearing and ORing disjoint bits are
realised as subtraction and addition of the field's contribution. -/
def BitField.insert (f : BitField) (value : Int) (word : Int) : Int :=
  (word - ((word / (2 ^ f.lo : Int)) % (2 ^ f.width : Int)) * 2 ^ f.lo)
    + (value % (2 ^ f.width : Int)) * 2 ^ f.lo

/-! ## Instruction format (`instr_format.py`) -/

/-- `reserved = BitField(31, 31)` -/
def reserved : BitField := ⟨31, 31⟩
/-- `instr_field = BitField(26, 30)` -/
def instr_field : BitField := ⟨26, 30⟩
/-- `cond_field = BitField(22, 25)` -/
def cond_field : BitField := ⟨22, 25⟩
/-- `reg_target_field = BitField(18, 21)` -/
def reg_target_field : BitField := ⟨18, 21⟩
/-- `reg_src1_field = BitField(14, 17)` -/
def reg_src1_field : BitField := ⟨14, 17⟩
/-- `reg_src2_field = BitField(10, 13)` -/
def reg_src2_field : BitField := ⟨10, 13⟩
/-- `offset_field = BitField(0, 9)` -/
def offset_field : BitField := ⟨0, 9⟩

/-- The operation codes of `instr_format.py` (class `OpCode`). -/
inductive OpCode where
  | HALT
  | LOAD
  | STORE
  | ADD
  | SUB
  | MUL
  | DIV
deriving DecidableEq, Repr

/-- The numeric value of each opcode, exactly as in the Python enum
(`HALT = 0, LOAD = 1, STORE = 2, ADD = 3, SUB = 5, MUL = 6, DIV = 7`,
with a gap at 4). -/
def OpCode.value : OpCode → Nat
  | .HALT => 0
  | .LOAD => 1
  | .STORE => 2
  | .ADD => 3
  | .SUB => 5
  | .MUL => 6
  | .DIV => 7

/-- `OpCode(n)` in Python: the opcode with value `n`, or a `ValueError`
(here `none`) when `n` is not the value of any member. -/
def OpCode.ofValue (n : Nat) : Option OpCode :=
  if n = 0 then some .HALT
  else if n = 1 then some .LOAD
  else if n = 2 then some .STORE
  else if n = 3 then some .ADD
  else if n = 5 then some .SUB
  else if n = 6 then some .MUL
  else if n = 7 then some .DIV
  else none

/-- Condition-flag constants of `instr_format.py` (class `CondFlag`).  A
flag set is embedded as its 4-bit numeric value; `CondFlag(n)` succeeds for
every `n < 16` since the members `M, Z, P, V` cover all four bits. -/
def CondFlag.M : Nat := 1
/-- Zero flag. -/
def CondFlag.Z : Nat := 2
/-- Positive flag. -/
def CondFlag.P : Nat := 4
/-- Overflow flag. -/
def CondFlag.V : Nat := 8
/-- `NEVER = 0`, the empty flag set. -/
def CondFlag.NEVER : Nat := 0
/-- `ALWAYS = M | Z | P | V`. -/
def CondFlag.ALWAYS : Nat := CondFlag.M ||| CondFlag.Z ||| CondFlag.P ||| CondFlag.V

/-- The decoded instruction record of `instr_format.py` (class
`Instruction`): opcode, condition flags, three register indices and the
signed offset.  Equality is field-wise, as in `Instruction.__eq__`. -/
structure Instruction where
  op : OpCode
  cond : Nat
  reg_target : Nat
  reg_src1 : Nat
  reg_src2 : Nat
  offset : Int
deriving DecidableEq, Repr

/-- `Instruction.encode`: insert each field into a zero word, in the order
of the source (opcode, condition, target, src1, src2, offset). -/
def Instruction.encode (i : Instruction) : Int :=
  let word : Int := 0
  let word := instr_field.insert (i.op.value : Int) word
  let word := cond_field.insert (i.cond : Int) word
  let word := reg_target_field.insert (i.reg_target : Int) word
  let word := reg_src1_field.insert (i.reg_src1 : Int) word
  let word := reg_src2_field.insert (i.reg_src2 : Int) word
  let word := offset_field.insert i.offset word
  word

/-- `decode(word)`: extract each field of the fixed layout; the offset is
extracted signed.  `OpCode(op)` raises `ValueError` (a decoding error) when
the opcode field value has no defined meaning; `CondFlag(cond)` always
succeeds since the 4-bit extraction is a combination of defined flags. -/
def decode (word : Int) : Except String Instruction :=
  match OpCode.ofValue (instr_field.extract word) with
  | none =>
      Except.error ("ValueError: " ++ toString (instr_field.extract word)
        ++ " is not a valid OpCode")
  | some op =>
      Except.ok
        { op := op
          cond := cond_field.extract word
          reg_target := reg_target_field.extract word
          reg_src1 := reg_src1_field.extract word
          reg_src2 := reg_src2_field.extract word
          offset := offset_field.extract_signed word }

/-! ## CPU engine (`cpu.py`)

`register.py`, `alu.py`, `memory.py` and `mvc.py` are not under `src/`; the
register cells, the ALU and the memory collaborator are modelled from the
spec.  The observer notification (`notify_all`) is a side effect with no
bearing on control flow or state and is not modelled. -/

/-- Modelled from the spec: the ALU's flag computation (`alu.py` is not under
`src/`): exactly one of Negative/Zero/Positive according to the sign of the
result. -/
def ALU.flags (result : Int) : Nat :=
  if result < 0 then CondFlag.M else if result = 0 then CondFlag.Z else CondFlag.P

/-- Modelled from the spec: `ALU.exec(op, a, b)` (`alu.py` is not under
`src/`): ADD/HALT/LOAD/STORE compute `a + b`, SUB `a - b`, MUL `a * b`, DIV
integer division truncating toward zero; DIV by zero does not raise but
yields the defined result 0 with the Overflow flag set in addition to the
sign flags.  Returns the result together with the new condition flags. -/
def ALU.exec (op : OpCode) (a b : Int) : Int × Nat :=
  match op with
  | .ADD | .HALT | .LOAD | .STORE => (a + b, ALU.flags (a + b))
  | .SUB => (a - b, ALU.flags (a - b))
  | .MUL => (a * b, ALU.flags (a * b))
  | .DIV => if b = 0 then (0, ALU.flags 0 ||| CondFlag.V) else (a.tdiv b, ALU.flags (a.tdiv b))

/-- Modelled from the spec: reading a register cell (`register.py` is not
under `src/`).  Cell 0 is the `ZeroRegister`, whose `get` always returns 0. -/
def regGet (regs : Nat → Int) (i : Nat) : Int :=
  if i = 0 then 0 else regs i

/-- Modelled from the spec: writing a register cell (`register.py` is not
under `src/`).  `put` on the `ZeroRegister` (cell 0) is a no-op. -/
def regPut (regs : Nat → Int) (i : Nat) (v : Int) : Nat → Int :=
  if i = 0 then regs else Function.update regs i v

/-- Modelled from the spec: the memory collaborator's `put` (an external
interface: `get(address) -> word`, `put(address, word)`); memory is embedded
as a total map from addresses to words (bounds are the collaborator's
concern, outside this core). -/
def memPut (mem : Int → Int) (addr v : Int) : Int → Int :=
  Function.update mem addr v

/-- The mutable state of a `CPU` instance: the memory collaborator, the 16
registers (embedded as a map from index to contents, with register 0 the
`ZeroRegister` and register 15 the program counter), the condition-flag
register and the `halted` flag. -/
structure CPUState where
  memory : Int → Int
  regs : Nat → Int
  cond_flag : Nat
  halted : Bool

/-- `CPU.__init__`: fresh registers, condition flags `ALWAYS`, not halted.
The initial contents of a fresh `Register()` cell are modelled from the spec
as 0 (`register.py` is not under `src/`); no theorem below depends on the
initial contents of registers other than through `CPU.fetch`. -/
def CPU.init (memory : Int → Int) : CPUState :=
  { memory := memory, regs := fun _ => 0, cond_flag := CondFlag.ALWAYS, halted := false }

/-- The fetch of `CPU.step`: the memory word at the address held in the
program counter (register 15). -/
def CPU.fetch (s : CPUState) : Int :=
  s.memory (regGet s.regs 15)

/-- The executed branch of `CPU.step` (predicate true), exactly in source
order: read the two source registers, add the offset to the second value,
increment the program counter, run the ALU (which sets the condition
flags), then dispatch on the opcode (HALT sets `halted`; LOAD reads memory
at the result into the target register; STORE writes the target register,
read after the PC increment, to memory at the result; every other opcode
writes the result into the target register). -/
def CPU.execInstr (s : CPUState) (dw : Instruction) : CPUState :=
  let val1 := regGet s.regs dw.reg_src1
  let val2 := regGet s.regs dw.reg_src2 + dw.offset
  let regs1 := regPut s.regs 15 (regGet s.regs 15 + 1)
  let rc := ALU.exec dw.op val1 val2
  match dw.op with
  | OpCode.HALT =>
      { s with regs := regs1, cond_flag := rc.2, halted := true }
  | OpCode.LOAD =>
      { s with regs := regPut regs1 dw.reg_target (s.memory rc.1), cond_flag := rc.2 }
  | OpCode.STORE =>
      { s with regs := regs1, cond_flag := rc.2,
               memory := memPut s.memory rc.1 (regGet regs1 dw.reg_target) }
  | _ =>
      { s with regs := regPut regs1 dw.reg_target rc.1, cond_flag := rc.2 }

/-- The skipped branch of `CPU.step` (predicate false): only the program
counter advances by 1. -/
def CPU.skipInstr (s : CPUState) : CPUState :=
  { s with regs := regPut s.regs 15 (regGet s.regs 15 + 1) }

/-- `CPU.step`: fetch, decode (a decoding error propagates — the engine does
not catch it), evaluate the predicate `cond_flag & instruction.cond`, and
execute or skip.  Python's `if predicate:` on a `CondFlag` tests whether its
value is non-zero. -/
def CPU.step (s : CPUState) : Except String CPUState := do
  let dw ← decode (CPU.fetch s)
  if s.cond_flag &&& dw.cond ≠ 0 then
    pure (CPU.execInstr s dw)
  else
    pure (CPU.skipInstr s)

/-! ## Helper lemmas -/

/-- Every extracted field value is below `2 ^ width`. -/
theorem BitField.extract_lt (f : BitField) (w : Int) : f.extract w < 2 ^ f.width := by
  simp only [BitField.extract]
  have h2 : (0 : Int) < 2 ^ f.width := by positivity
  have h := Int.emod_lt_of_pos (w / (2 ^ f.lo : Int)) h2
  have hcast : ((2 ^ f.width : Nat) : Int) = 2 ^ f.width := by push_cast; ring
  omega

/-- The `OpCode` of a given value decodes back to itself. -/
theorem OpCode.ofValue_value (op : OpCode) : OpCode.ofValue op.value = some op := by
  cases op <;> rfl

/-- `OpCode(n)` fails exactly for the values with no defined meaning. -/
theorem OpCode.ofValue_eq_none_iff (n : Nat) :
    OpCode.ofValue n = none ↔ n ∉ ([0, 1, 2, 3, 5, 6, 7] : List Nat) := by
  unfold OpCode.ofValue
  split_ifs with h0 h1 h2 h3 h5 h6 h7 <;> simp_all

/-- A successfully decoded instruction has a 4-bit condition field. -/
theorem decode_cond_lt {w : Int} {i : Instruction} (h : decode w = Except.ok i) :
    i.cond < 16 := by
  unfold decode at h
  cases hv : OpCode.ofValue (instr_field.extract w) with
  | none => rw [hv] at h; exact absurd h (by simp)
  | some op =>
      rw [hv] at h
      have := BitField.extract_lt cond_field w
      simp only [Except.ok.injEq] at h
      subst h
      simpa [cond_field, BitField.width] using this

/-- When the fetched word decodes and the predicate is non-empty, `step`
takes the executed branch. -/
theorem step_exec_of_pred {s : CPUState} {i : Instruction}
    (hdec : decode (CPU.fetch s) = Except.ok i)
    (hpred : s.cond_flag &&& i.cond ≠ 0) :
    CPU.step s = Except.ok (CPU.execInstr s i) := by
  simp [CPU.step, hdec, hpred, bind, Except.bind, pure, Except.pure]

/-- When the fetched word decodes and the predicate is empty, `step` takes
the skipped branch. -/
theorem step_skip_of_pred {s : CPUState} {i : Instruction}
    (hdec : decode (CPU.fetch s) = Except.ok i)
    (hpred : s.cond_flag &&& i.cond = 0) :
    CPU.step s = Except.ok (CPU.skipInstr s) := by
  simp [CPU.step, hdec, hpred, bind, Except.bind, pure, Except.pure]

/-- Whether an `Except` is an error. -/
def isError {ε α : Type} : Except ε α → Bool
  | .error _ => true
  | .ok _ => false

/-! ## Claim theorems: codec and CPU -/

/-- C1: for every well-formed `Instruction` record whose fields fit their
bit widths (opcode a defined `OpCode` value — enforced by the type —
condition a 4-bit flag set, the three register indices in `[0, 15]`, offset
in the signed range of the 10-bit offset field), `decode (encode i)` equals
`i` field-wise. -/
theorem decode_encode_roundtrip (i : Instruction) (hc : i.cond < 16)
    (ht : i.reg_target < 16) (h1 : i.reg_src1 < 16) (h2 : i.reg_src2 < 16)
    (hlo : -512 ≤ i.offset) (hhi : i.offset ≤ 511) :
    decode i.encode = Except.ok i := by
  obtain ⟨op, cond, rt, r1, r2, off⟩ := i
  simp only at hc ht h1 h2 hlo hhi
  have hv : op.value < 32 := by cases op <;> decide
  have henc : Instruction.encode ⟨op, cond, rt, r1, r2, off⟩
      = (op.value : Int) * 2 ^ 26 + (cond : Int) * 2 ^ 22 + (rt : Int) * 2 ^ 18
        + (r1 : Int) * 2 ^ 14 + (r2 : Int) * 2 ^ 10 + off % 2 ^ 10 := by
    simp only [Instruction.encode, BitField.insert, BitField.width, instr_field, cond_field,
      reg_target_field, reg_src1_field, reg_src2_field, offset_field]
    norm_num
    omega
  have hext_op : instr_field.extract (Instruction.encode ⟨op, cond, rt, r1, r2, off⟩)
      = op.value := by
    rw [henc]; simp only [BitField.extract, BitField.width, instr_field]; norm_num; omega
  unfold decode
  rw [hext_op, OpCode.ofValue_value]
  simp only [Except.ok.injEq, Instruction.mk.injEq]
  refine ⟨trivial, ?_, ?_, ?_, ?_, ?_⟩
  · rw [henc]; simp only [BitField.extract, BitField.width, cond_field]; norm_num; omega
  · rw [henc]; simp only [BitField.extract, BitField.width, reg_target_field]; norm_num; omega
  · rw [henc]; simp only [BitField.extract, BitField.width, reg_src1_field]; norm_num; omega
  · rw [henc]; simp only [BitField.extract, BitField.width, reg_src2_field]; norm_num; omega
  · rw [henc, BitField.extract_signed]
    simp only [BitField.extract, BitField.width, offset_field]
    norm_num
    split <;> omega

/-- Witness for C1: the round trip at a concrete well-formed instruction. -/
theorem decode_encode_roundtrip_witness :
    decode (Instruction.encode ⟨.SUB, 3, 15, 7, 9, -14⟩)
      = Except.ok ⟨.SUB, 3, 15, 7, 9, -14⟩ :=
  decode_encode_roundtrip ⟨.SUB, 3, 15, 7, 9, -14⟩ (by decide) (by decide) (by decide)
    (by decide) (by decide) (by decide)

/-- A concrete predicated jump: `ADD` with condition `ALWAYS` targeting the
program counter, offset 7. -/
def jumpInstr : Instruction := ⟨.ADD, 15, 15, 1, 2, 7⟩

/-- A memory holding the encoded `jumpInstr` at every address. -/
def jumpMem : Int → Int := fun _ => jumpInstr.encode

/-- A concrete instruction with condition `NEVER`. -/
def neverInstr : Instruction := ⟨.SUB, 0, 1, 2, 3, 0⟩

/-- A memory holding the encoded `neverInstr` at every address. -/
def neverMem : Int → Int := fun _ => neverInstr.encode

/-- C3: in `CPU.step`, when the predicate holds, the source register values
are read from the pre-step registers, and the program counter is incremented
before the ALU runs and before the opcode dispatch; consequently, for any
opcode other than HALT, LOAD and STORE whose target register is 15, the
value of register 15 after the step is the ALU result (computed from the
pre-step register values), not the pre-incremented PC. -/
theorem step_pc_target_gets_alu_result (s : CPUState) (i : Instruction)
    (hdec : decode (CPU.fetch s) = Except.ok i)
    (hpred : s.cond_flag &&& i.cond ≠ 0)
    (hH : i.op ≠ OpCode.HALT) (hL : i.op ≠ OpCode.LOAD) (hS : i.op ≠ OpCode.STORE)
    (ht : i.reg_target = 15) :
    CPU.step s = Except.ok (CPU.execInstr s i) ∧
      regGet (CPU.execInstr s i).regs 15
        = (ALU.exec i.op (regGet s.regs i.reg_src1) (regGet s.regs i.reg_src2 + i.offset)).1 := by
  refine ⟨step_exec_of_pred hdec hpred, ?_⟩
  obtain ⟨op, cond, rt, r1, r2, off⟩ := i
  simp only at ht hH hL hS ⊢
  subst ht
  cases op <;> simp_all [CPU.execInstr, regGet, regPut, Function.update]

/-- Witness for C3: stepping `jumpInstr` from a fresh CPU leaves the ALU
result in the program counter. -/
theorem step_pc_target_gets_alu_result_witness :
    CPU.step (CPU.init jumpMem)
        = Except.ok (CPU.execInstr (CPU.init jumpMem) jumpInstr) ∧
      regGet (CPU.execInstr (CPU.init jumpMem) jumpInstr).regs 15
        = (ALU.exec jumpInstr.op (regGet (CPU.init jumpMem).regs jumpInstr.reg_src1)
            (regGet (CPU.init jumpMem).regs jumpInstr.reg_src2 + jumpInstr.offset)).1 :=
  step_pc_target_gets_alu_result (CPU.init jumpMem) jumpInstr rfl (by decide)
    (by decide) (by decide) (by decide) rfl

/-- C4: `CPU.step` executes the fetched instruction exactly when the bitwise
intersection of the CPU's condition flags and the instruction's condition
field is non-empty; an instruction whose condition is `NEVER` is never
executed, and an instruction whose condition is `ALWAYS` is executed
whenever the CPU's current flags are non-empty. -/
theorem step_executes_iff_predicate_intersects (s : CPUState) (i : Instruction)
    (hdec : decode (CPU.fetch s) = Except.ok i)
    (hflags : s.cond_flag < 16) :
    ((s.cond_flag &&& i.cond ≠ 0) → CPU.step s = Except.ok (CPU.execInstr s i)) ∧
    ((s.cond_flag &&& i.cond = 0) → CPU.step s = Except.ok (CPU.skipInstr s)) ∧
    (i.cond = CondFlag.NEVER → CPU.step s = Except.ok (CPU.skipInstr s)) ∧
    (i.cond = CondFlag.ALWAYS → s.cond_flag ≠ 0 →
      CPU.step s = Except.ok (CPU.execInstr s i)) := by
  refine ⟨fun h => step_exec_of_pred hdec h, fun h => step_skip_of_pred hdec h, ?_, ?_⟩
  · intro h
    refine step_skip_of_pred hdec ?_
    rw [h]
    exact Nat.and_zero _
  · intro h hnz
    refine step_exec_of_pred hdec ?_
    rw [h]
    have hall : ∀ c : Nat, c < 16 → c &&& CondFlag.ALWAYS = c := by decide
    rw [hall s.cond_flag hflags]
    exact hnz

/-- Witness for C4: a fresh CPU executes an `ALWAYS` instruction and skips a
`NEVER` instruction. -/
theorem step_executes_iff_predicate_intersects_witness :
    CPU.step (CPU.init jumpMem)
        = Except.ok (CPU.execInstr (CPU.init jumpMem) jumpInstr) ∧
      CPU.step (CPU.init neverMem) = Except.ok (CPU.skipInstr (CPU.init neverMem)) :=
  ⟨(step_executes_iff_predicate_intersects (CPU.init jumpMem) jumpInstr rfl
      (by decide)).2.2.2 rfl (by decide),
   (step_executes_iff_predicate_intersects (CPU.init neverMem) neverInstr rfl
      (by decide)).2.2.1 rfl⟩

/-- C5: when the predicate evaluates to false, `CPU.step` advances the
program counter by exactly 1 and changes nothing else: every register other
than register 15, all of memory, the condition-flag register and the halted
flag are unchanged (in particular no ALU activity and no flag update). -/
theorem step_skip_frame (s : CPUState) (i : Instruction)
    (hdec : decode (CPU.fetch s) = Except.ok i)
    (hpred : s.cond_flag &&& i.cond = 0) :
    CPU.step s = Except.ok (CPU.skipInstr s) ∧
    regGet (CPU.skipInstr s).regs 15 = regGet s.regs 15 + 1 ∧
    (∀ j, j ≠ 15 → regGet (CPU.skipInstr s).regs j = regGet s.regs j) ∧
    (CPU.skipInstr s).memory = s.memory ∧
    (CPU.skipInstr s).cond_flag = s.cond_flag ∧
    (CPU.skipInstr s).halted = s.halted := by
  refine ⟨step_skip_of_pred hdec hpred, ?_, ?_, rfl, rfl, rfl⟩
  · simp [CPU.skipInstr, regGet, regPut]
  · intro j hj
    by_cases hj0 : j = 0
    · subst hj0; simp [CPU.skipInstr, regGet, regPut]
    · simp [CPU.skipInstr, regGet, regPut, hj0, Function.update_noteq hj]

/-- Witness for C5: a skipped `NEVER` instruction on a fresh CPU bumps the
PC and leaves register 3, memory, flags and `halted` alone. -/
theorem step_skip_frame_witness :
    CPU.step (CPU.init neverMem) = Except.ok (CPU.skipInstr (CPU.init neverMem)) ∧
      regGet (CPU.skipInstr (CPU.init neverMem)).regs 15
        = regGet (CPU.init neverMem).regs 15 + 1 ∧
      regGet (CPU.skipInstr (CPU.init neverMem)).regs 3
        = regGet (CPU.init neverMem).regs 3 ∧
      (CPU.skipInstr (CPU.init neverMem)).cond_flag = (CPU.init neverMem).cond_flag :=
  ⟨(step_skip_frame (CPU.init neverMem) neverInstr rfl (by decide)).1,
   (step_skip_frame (CPU.init neverMem) neverInstr rfl (by decide)).2.1,
   (step_skip_frame (CPU.init neverMem) neverInstr rfl (by decide)).2.2.1 3 (by decide),
   (step_skip_frame (CPU.init neverMem) neverInstr rfl (by decide)).2.2.2.2.1⟩

/-- C9: `decode` fails with a decoding error exactly when the 5-bit opcode
field holds a value with no defined meaning (outside `{0,1,2,3,5,6,7}`), and
`CPU.step` does not catch the error: it propagates, terminating the run
instead of executing the malformed word. -/
theorem decode_error_only_bad_opcode_and_fatal :
    (∀ w : Int, isError (decode w) = true
        ↔ instr_field.extract w ∉ ([0, 1, 2, 3, 5, 6, 7] : List Nat)) ∧
    (∀ (s : CPUState) (e : String),
        decode (CPU.fetch s) = Except.error e → CPU.step s = Except.error e) := by
  constructor
  · intro w
    cases hv : OpCode.ofValue (instr_field.extract w) with
    | none =>
        simp [decode, hv, isError, (OpCode.ofValue_eq_none_iff _).mp hv]
    | some op =>
        have hmem : instr_field.extract w ∈ ([0, 1, 2, 3, 5, 6, 7] : List Nat) := by
          by_contra hmem
          rw [← OpCode.ofValue_eq_none_iff] at hmem
          rw [hmem] at hv
          cases hv
        simp [decode, hv, isError, hmem]
  · intro s e h
    simp [CPU.step, h, bind, Except.bind]

/-- A memory holding, at every address, a word whose opcode field is the
undefined value 4. -/
def badOpcodeMem : Int → Int := fun _ => (4 : Int) * 2 ^ 26

/-- Witness for C9: the word with opcode field 4 fails to decode, and
stepping a CPU fetching it propagates the error. -/
theorem decode_error_only_bad_opcode_and_fatal_witness :
    isError (decode ((4 : Int) * 2 ^ 26)) = true ∧
      CPU.step (CPU.init badOpcodeMem)
        = Except.error "ValueError: 4 is not a valid OpCode" :=
  ⟨(decode_error_only_bad_opcode_and_fatal.1 ((4 : Int) * 2 ^ 26)).mpr (by decide),
   decode_error_only_bad_opcode_and_fatal.2 (CPU.init badOpcodeMem)
     "ValueError: 4 is not a valid OpCode" rfl⟩

/-- C10: a freshly constructed CPU has its condition flags set to `ALWAYS`
(all of M, Z, P, V) and `halted` false; hence the first instruction stepped
after construction is executed whenever its condition field is any non-empty
flag set, before any ALU result has been produced. -/
theorem init_flags_always_first_step_executes (mem : Int → Int) (i : Instruction)
    (hdec : decode (CPU.fetch (CPU.init mem)) = Except.ok i)
    (hc : i.cond ≠ 0) :
    (CPU.init mem).cond_flag = CondFlag.ALWAYS ∧
    (CPU.init mem).halted = false ∧
    CPU.step (CPU.init mem) = Except.ok (CPU.execInstr (CPU.init mem) i) := by
  refine ⟨rfl, rfl, step_exec_of_pred hdec ?_⟩
  have hlt : i.cond < 16 := decode_cond_lt hdec
  have hall : ∀ c : Nat, c < 16 → CondFlag.ALWAYS &&& c = c := by decide
  show (CPU.init mem).cond_flag &&& i.cond ≠ 0
  simp only [CPU.init]
  rw [hall i.cond hlt]
  exact hc

/-- Witness for C10: a fresh CPU over `jumpMem` has `ALWAYS` flags, is not
halted, and executes the fetched instruction on its first step. -/
theorem init_flags_always_first_step_executes_witness :
    (CPU.init jumpMem).cond_flag = CondFlag.ALWAYS ∧
      (CPU.init jumpMem).halted = false ∧
      CPU.step (CPU.init jumpMem)
        = Except.ok (CPU.execInstr (CPU.init jumpMem) jumpInstr) :=
  init_flags_always_first_step_executes jumpMem jumpInstr rfl (by decide)

/-! ## Assembler (`assembler_pass1.py`)

The four line shapes are given in the source as Python verbose regexes,
tried in the fixed order FULL, DATA, COMMENT, SYMBOLIC (`PATTERNS`).  Each
is embedded below as a deterministic matcher over the line's characters.
The regexes are deterministic on their alternatives: every repetition is
maximal-munch over a character class that cannot overlap the following
element (`\w*` is always followed by a required non-word character, register
digits by a non-digit, `.*` runs to the end of the line), so no backtracking
beyond what the matchers implement can create a match the matchers miss.
Source lines are embedded newline-free (`.` and `\s*$` then coincide with
end of string). -/

/-- `[a-zA-Z]` -/
def isAlphaCh (c : Char) : Bool :=
  (97 ≤ c.toNat && c.toNat ≤ 122) || (65 ≤ c.toNat && c.toNat ≤ 90)

/-- `[0-9]` -/
def isDigitCh (c : Char) : Bool := 48 ≤ c.toNat && c.toNat ≤ 57

/-- `\w`, i.e. `[a-zA-Z0-9_]` -/
def isWordCh (c : Char) : Bool := isAlphaCh c || isDigitCh c || c = '_'

/-- Python `\s`: space, tab, newline, carriage return, vertical tab, form
feed. -/
def isSpaceCh (c : Char) : Bool :=
  c = ' ' || c = '\t' || c = '\n' || c = '\r' || c = '\x0b' || c = '\x0c'

/-- `[a-fA-F0-9]` -/
def isHexCh (c : Char) : Bool :=
  isDigitCh c || (97 ≤ c.toNat && c.toNat ≤ 102) || (65 ≤ c.toNat && c.toNat ≤ 70)

/-- Drop leading characters matched by `\s*`. -/
def skipWs (cs : List Char) : List Char := (cs.span isSpaceCh).2

/-- Match a literal character sequence, returning the rest. -/
def matchLit : List Char → List Char → Option (List Char)
  | [], cs => some cs
  | _ :: _, [] => none
  | p :: ps, c :: cs => if c = p then matchLit ps cs else none

/-- The optional leading `((?P<label> [a-zA-Z]\w*):)?` of every pattern:
a maximal alphanumeric-word run starting with a letter, followed by a
colon.  (`:` is not a word character, so the run is unambiguous; and no
pattern element after a failed label alternative can consume the colon, so
committing to a present label loses no matches.) -/
def tryLabel (cs : List Char) : Option String × List Char :=
  match cs with
  | c :: rest =>
      if isAlphaCh c then
        let (w, rest') := rest.span isWordCh
        match rest' with
        | ':' :: tail => (some (String.mk (c :: w)), tail)
        | _ => (none, cs)
      else (none, cs)
  | [] => (none, cs)

/-- The common trailing `(\s*(?P<comment>[#;].*))?\s*$` of every pattern:
optional whitespace, then either end of line or a comment running to the
end. -/
def matchTailCmt (cs : List Char) : Option (Option String) :=
  match skipWs cs with
  | [] => some none
  | c :: rest =>
      if c = '#' || c = ';' then some (some (String.mk (c :: rest))) else none

/-- The optional `(/ (?P<predicate> [a-zA-Z]+))?`. -/
def matchPred (cs : List Char) : Option String × List Char :=
  match cs with
  | '/' :: rest =>
      let (p, rest') := rest.span isAlphaCh
      if p.isEmpty then (none, cs) else (some (String.mk p), rest')
  | _ => (none, cs)

/-- A register token `r[0-9]+`. -/
def matchRegTok (cs : List Char) : Option (String × List Char) :=
  match cs with
  | 'r' :: rest =>
      let (d, rest') := rest.span isDigitCh
      if d.isEmpty then none else some (String.mk ('r' :: d), rest')
  | _ => none

/-- The optional offset `(\[ (?P<offset>[-]?[0-9]+) \])?` of the FULL
pattern. -/
def matchOffsetTok (cs : List Char) : Option (Option String × List Char) :=
  match cs with
  | '[' :: rest =>
      let (sgn, rest') :=
        match rest with
        | '-' :: r => ([ '-' ], r)
        | _ => (([] : List Char), rest)
      let (d, rest2) := rest'.span isDigitCh
      if d.isEmpty then none
      else
        match rest2 with
        | ']' :: tail => some (some (String.mk (sgn ++ d)), tail)
        | _ => none
  | _ => some (none, cs)

/-- The named groups of `ASM_FULL_PAT` (its `groupdict()` keys). -/
structure FullGroups where
  label : Option String
  opcode : String
  predicate : Option String
  target : String
  src1 : String
  src2 : String
  offset : Option String
  comment : Option String

/-- The named groups of `ASM_DATA_PAT`. -/
structure DataGroups where
  label : Option String
  opcode : String
  value : Option String
  comment : Option String

/-- The named groups of `ASM_COMMENT_PAT`. -/
structure CommentGroups where
  label : Option String
  comment : Option String

/-- The named groups of `ASM_SYMBOLIC_PAT`. -/
structure SymbolicGroups where
  label : Option String
  opcode : String
  predicate : Option String
  target : Option String
  symbol : String
  comment : Option String

/-- `ASM_FULL_PAT.fullmatch`: optional label, whitespace, an alphabetic
opcode, optional `/predicate`, required whitespace, three comma-separated
register tokens, optional bracketed offset, optional comment. -/
def matchFull (line : List Char) : Option FullGroups :=
  let (lbl, cs) := tryLabel line
  let cs := skipWs cs
  let (opChars, cs) := cs.span isAlphaCh
  if opChars.isEmpty then none
  else
    let (pred, cs) := matchPred cs
    match cs with
    | c :: rest =>
        if isSpaceCh c then
          let cs := skipWs rest
          match matchRegTok cs with
          | some (target, ',' :: cs) =>
              match matchRegTok cs with
              | some (src1, ',' :: cs) =>
                  match matchRegTok cs with
                  | some (src2, cs) =>
                      match matchOffsetTok cs with
                      | some (off, cs) =>
                          match matchTailCmt cs with
                          | some cmt =>
                              some ⟨lbl, String.mk opChars, pred, target, src1, src2, off, cmt⟩
                          | none => none
                      | none => none
                  | none => none
              | _ => none
          | _ => none
        else none
    | [] => none

/-- The optional data value `(?P<value> (0x[a-fA-F0-9]+) | ([0-9]+))?` of
the DATA pattern; the hexadecimal alternative is tried first, and when
`0x` is not followed by a hex digit the decimal alternative matches the
leading `0` alone (as the regex engine would). -/
def matchDataValue (cs : List Char) : Option String × List Char :=
  match cs with
  | '0' :: 'x' :: rest =>
      let (h, rest') := rest.span isHexCh
      if h.isEmpty then (some "0", 'x' :: rest)
      else (some (String.mk ('0' :: 'x' :: h)), rest')
  | c :: _ =>
      if isDigitCh c then
        let (d, rest') := cs.span isDigitCh
        (some (String.mk d), rest')
      else (none, cs)
  | [] => (none, cs)

/-- `ASM_DATA_PAT.fullmatch`: optional label, whitespace, the literal
opcode `DATA`, whitespace, an optional value, optional comment. -/
def matchData (line : List Char) : Option DataGroups :=
  let (lbl, cs) := tryLabel line
  let cs := skipWs cs
  match matchLit ['D', 'A', 'T', 'A'] cs with
  | none => none
  | some cs =>
      let cs := skipWs cs
      let (v, cs) := matchDataValue cs
      match matchTailCmt cs with
      | some cmt => some ⟨lbl, "DATA", v, cmt⟩
      | none => none

/-- `ASM_COMMENT_PAT.fullmatch`: optional label, then only whitespace or a
comment (blank lines and label-only lines match). -/
def matchComment (line : List Char) : Option CommentGroups :=
  let (lbl, cs) := tryLabel line
  match matchTailCmt cs with
  | some cmt => some ⟨lbl, cmt⟩
  | none => none

/-- `ASM_SYMBOLIC_PAT.fullmatch`: optional label, whitespace, one of the
literal opcodes `STORE`/`LOAD`/`JUMP`, optional `/predicate`, required
whitespace, an optional `target-register,`, a symbol, optional comment. -/
def matchSymbolic (line : List Char) : Option SymbolicGroups :=
  let (lbl, cs) := tryLabel line
  let cs := skipWs cs
  let opRes : Option (String × List Char) :=
    match matchLit ['S', 'T', 'O', 'R', 'E'] cs with
    | some rest => some ("STORE", rest)
    | none =>
        match matchLit ['L', 'O', 'A', 'D'] cs with
        | some rest => some ("LOAD", rest)
        | none =>
            match matchLit ['J', 'U', 'M', 'P'] cs with
            | some rest => some ("JUMP", rest)
            | none => none
  match opRes with
  | none => none
  | some (opc, cs) =>
      let (pred, cs) := matchPred cs
      match cs with
      | c :: rest =>
          if isSpaceCh c then
            let cs := skipWs rest
            let (target, cs) :=
              match matchRegTok cs with
              | some (t, ',' :: cs') => (some t, cs')
              | _ => ((none : Option String), cs)
            match cs with
            | c2 :: rest2 =>
                if isAlphaCh c2 then
                  let (w, cs2) := rest2.span isWordCh
                  match matchTailCmt cs2 with
                  | some cmt => some ⟨lbl, opc, pred, target, String.mk (c2 :: w), cmt⟩
                  | none => none
                else none
            | [] => none
          else none
      | [] => none

/-- The line kinds of `assembler_pass1.py` (enum `AsmSrcKind`). -/
inductive AsmSrcKind where
  | COMMENT
  | FULL
  | DATA
  | SYMBOLIC
deriving DecidableEq, Repr

/-- A dynamically typed Python value, as far as the assembler stores one in
a dict: `None`, a string, an int, an `AsmSrcKind` enum member, or a dict. -/
inductive PyVal where
  | none : PyVal
  | str : String → PyVal
  | int : Int → PyVal
  | srcKind : AsmSrcKind → PyVal
  | dict : List (String × PyVal) → PyVal

/-- A Python dict with string keys, embedded as an insertion-ordered
association list. -/
abbrev Dict := List (String × PyVal)

/-- The exceptions the assembler raises or catches: the module's own
`SyntaxError`, and Python's `KeyError`, `TypeError` and `NameError`. -/
inductive PyError where
  | synErr : String → PyError
  | keyErr : String → PyError
  | typeErr : String → PyError
  | nameErr : String → PyError
deriving DecidableEq, Repr

/-- `d[k]`: the value at a key, or a `KeyError`. -/
def dictGet (d : Dict) (k : String) : Except PyError PyVal :=
  match d with
  | [] => .error (.keyErr k)
  | (k', v) :: rest => if k' = k then .ok v else dictGet rest k

/-- `d[k] = v`: replace the first entry with the key, or append. -/
def dictSet (d : Dict) (k : String) (v : PyVal) : Dict :=
  match d with
  | [] => [(k, v)]
  | (k', v') :: rest => if k' = k then (k', v) :: rest else (k', v') :: dictSet rest k v

/-- Key membership in a dict. -/
def dictHasKey (d : Dict) (k : String) : Bool :=
  d.any (fun kv => kv.1 = k)

/-- A matched optional group as a dict value: the string, or `None`. -/
def optV : Option String → PyVal
  | some s => .str s
  | none => .none

/-- Python truthiness of the values the assembler branches on: `None` and
empty containers are falsy; non-empty strings, non-zero ints and enum
members are truthy. -/
def pyTruthy (v : PyVal) : Bool :=
  match v with
  | .none => false
  | .str s => !s.isEmpty
  | .int i => i != 0
  | .srcKind _ => true
  | .dict d => !d.isEmpty

/-- Python `v == s` for a string literal `s`: only equal strings compare
equal; values of other types compare unequal without error. -/
def pyEqStr (v : PyVal) (s : String) : Bool :=
  match v with
  | .str t => t = s
  | _ => false

/-- Python `v == k` for an `AsmSrcKind` member `k` (enum identity). -/
def pyKindEq (v : PyVal) (k : AsmSrcKind) : Bool :=
  match v with
  | .srcKind k' => k' = k
  | _ => false

/-- Python `str(v)`, as used by `str.format` on the values that reach a
format slot (`None` renders as `"None"`; dict rendering is never
exercised). -/
def pyStr (v : PyVal) : String :=
  match v with
  | .none => "None"
  | .str s => s
  | .int i => toString i
  | .srcKind k => "AsmSrcKind." ++ (match k with
      | .COMMENT => "COMMENT"
      | .FULL => "FULL"
      | .DATA => "DATA"
      | .SYMBOLIC => "SYMBOLIC")
  | .dict _ => "dict"

/-- Whether the first character list begins the second. -/
def startsWithCh : List Char → List Char → Bool
  | [], _ => true
  | _ :: _, [] => false
  | a :: as, b :: bs => a = b && startsWithCh as bs

/-- Whether the first character list occurs contiguously in the second. -/
def isSubstrCh (xs : List Char) : List Char → Bool
  | [] => xs.isEmpty
  | c :: cs => startsWithCh xs (c :: cs) || isSubstrCh xs cs

/-- Python `x in container`: key membership for a dict, substring test for
a string, and a `TypeError` for an int (ints are not iterable). -/
def pyIn (x : PyVal) (container : PyVal) : Except PyError Bool :=
  match container with
  | .dict d => .ok (d.any (fun kv => pyEqStr x kv.1))
  | .str t =>
      match x with
      | .str xs => .ok (isSubstrCh xs.toList t.toList)
      | _ => .error (.typeErr "in <string> requires string as left operand")
  | .int _ => .error (.typeErr "argument of type 'int' is not iterable")
  | _ => .error (.typeErr "argument is not iterable")

/-- Python `container[k]` for a string key: dict lookup, or a `TypeError`
when the container is an int. -/
def pySubscript (c : PyVal) (k : String) : Except PyError PyVal :=
  match c with
  | .dict d => dictGet d k
  | .int _ => .error (.typeErr "'int' object is not subscriptable")
  | _ => .error (.typeErr "object is not subscriptable")

/-- Python `a + b` on the values at hand: int addition or string
concatenation; any other combination is a `TypeError`. -/
def pyAdd (a b : PyVal) : Except PyError PyVal :=
  match a, b with
  | .int x, .int y => .ok (.int (x + y))
  | .str x, .str y => .ok (.str (x ++ y))
  | _, _ => .error (.typeErr "unsupported operand type(s) for +")

/-- The `groupdict()` of a FULL match, in group order. -/
def fullDict (g : FullGroups) : Dict :=
  [("label", optV g.label), ("opcode", PyVal.str g.opcode),
   ("predicate", optV g.predicate), ("target", PyVal.str g.target),
   ("src1", PyVal.str g.src1), ("src2", PyVal.str g.src2),
   ("offset", optV g.offset), ("comment", optV g.comment)]

/-- The `groupdict()` of a DATA match, in group order. -/
def dataDict (g : DataGroups) : Dict :=
  [("label", optV g.label), ("opcode", PyVal.str g.opcode),
   ("value", optV g.value), ("comment", optV g.comment)]

/-- The `groupdict()` of a COMMENT match, in group order. -/
def commentDict (g : CommentGroups) : Dict :=
  [("label", optV g.label), ("comment", optV g.comment)]

/-- The `groupdict()` of a SYMBOLIC match, in group order. -/
def symbolicDict (g : SymbolicGroups) : Dict :=
  [("label", optV g.label), ("opcode", PyVal.str g.opcode),
   ("predicate", optV g.predicate), ("target", optV g.target),
   ("symbol", PyVal.str g.symbol), ("comment", optV g.comment)]

/-- `parse_line`: try the patterns in the order of `PATTERNS` (FULL, DATA,
COMMENT, SYMBOLIC); on the first match return its field dict with `kind`
set; otherwise raise the module's `SyntaxError`. -/
def parse_line (line : String) : Except PyError Dict :=
  match matchFull line.toList with
  | some g => .ok (dictSet (fullDict g) "kind" (.srcKind .FULL))
  | none =>
  match matchData line.toList with
  | some g => .ok (dictSet (dataDict g) "kind" (.srcKind .DATA))
  | none =>
  match matchComment line.toList with
  | some g => .ok (dictSet (commentDict g) "kind" (.srcKind .COMMENT))
  | none =>
  match matchSymbolic line.toList with
  | some g => .ok (dictSet (symbolicDict g) "kind" (.srcKind .SYMBOLIC))
  | none => .error (.synErr ("Assembler syntax error in " ++ line))

/-- The loop body accumulation of `build_table`, exactly as in the source:
for each line, parse it (an uncaught `SyntaxError` propagates); when the
kind is not COMMENT run `curr_addr += curr_addr`; when the kind is SYMBOLIC
run `sym_table['label'] = fields["symbol"]` and
`sym_table['position'] = curr_addr`. -/
def buildTableGo (lines : List String) (curr : Int) (tbl : Dict) :
    Except PyError Dict :=
  match lines with
  | [] => .ok tbl
  | line :: rest => do
      let fields ← parse_line line
      let kindv ← dictGet fields "kind"
      let curr := if !pyKindEq kindv .COMMENT then curr + curr else curr
      let tbl ←
        if pyKindEq kindv .SYMBOLIC then do
          let sym ← dictGet fields "symbol"
          pure (dictSet (dictSet tbl "label" sym) "position" (.int curr))
        else pure tbl
      buildTableGo rest curr tbl

/-- `build_table` (assembler pass 1): scan the lines with `curr_addr = 0`
and an empty `sym_table`. -/
def build_table (lines : List String) : Except PyError Dict :=
  buildTableGo lines 0 []

/-- `resolve_line(fields, curr_addr, sym_table)`, parameters in the order
of its `def` (its caller passes them in a different order).  Mirrors the
source: `new_line = ''`; if `fields["symbol"] in sym_table`, set
`fields["offset"] = curr_addr + sym_table['position']`, then branch on
`fields["opcode"] == 'LOAD' or 'STORE'` (the `or` makes the test always
truthy) and on `== 'JUMP'`, building `new_line` with `str.format` (whose
seventh argument, `sym_table['label']`, is evaluated but has no slot: the
last slot is filled by `fields["comment"]`); finally return `new_line`. -/
def resolve_line (fields : Dict) (curr_addr : PyVal) (sym_table : PyVal) :
    Except PyError String := do
  let sym ← dictGet fields "symbol"
  let mem ← pyIn sym sym_table
  if mem then
    let pos ← pySubscript sym_table "position"
    let off ← pyAdd curr_addr pos
    let fields := dictSet fields "offset" off
    let opv ← dictGet fields "opcode"
    if pyEqStr opv "LOAD" || pyTruthy (.str "STORE") then
      let a1 ← dictGet fields "opcode"
      let a2 ← dictGet fields "predicate"
      let a3 ← dictGet fields "target"
      let a4 ← dictGet fields "src1"
      let a5 ← dictGet fields "offset"
      let a6 ← dictGet fields "comment"
      let _a7 ← pySubscript sym_table "label"
      pure (pyStr a1 ++ "/" ++ pyStr a2 ++ " " ++ pyStr a3 ++ "," ++ pyStr a4
        ++ ",r15[" ++ pyStr a5 ++ "] # Access variable '" ++ pyStr a6 ++ "'")
    else
      if pyEqStr opv "JUMP" then
        let fields := dictSet fields "opcode" (.str "ADD")
        let a1 ← dictGet fields "opcode"
        let a2 ← dictGet fields "target"
        let a3 ← dictGet fields "src1"
        let a4 ← dictGet fields "src2"
        let a5 ← dictGet fields "offset"
        let a6 ← dictGet fields "comment"
        let _a7 ← pySubscript sym_table "label"
        pure (pyStr a1 ++ " " ++ pyStr a2 ++ "," ++ pyStr a3 ++ "," ++ pyStr a4
          ++ "[" ++ pyStr a5 ++ "] # Jump to " ++ pyStr a6)
      else
        pure ""
  else
    pure ""

/-- `ERROR_LIMIT = 5`: abandon assembly once the error count exceeds it. -/
def ERROR_LIMIT : Nat := 5

/-- The try-block of one `transform_lines` iteration: parse the line, run
`curr_addr += curr_addr` when the kind is not COMMENT, and — since
`fields["kind"] == AsmSrcKind.FULL or AsmSrcKind.SYMBOLIC` is always truthy
(the `or` operand is a truthy enum member) — call
`resolve_line(fields, sym_table, curr_addr)`.  That call site passes
`sym_table` for the `curr_addr` parameter and `curr_addr` for the
`sym_table` parameter (the definition's order is `fields, curr_addr,
sym_table`).  On success the resolved line is printed to the object file
(the write site also reads the module-global name `args`, which is never
bound when `transform_lines` runs — but no execution reaches it, because
`resolve_line` raises on every field dict `parse_line` can produce).
Returns the line's `curr_addr` mutation together with the emitted line or
the raised exception. -/
def lineBody (sym_table : Dict) (line : String) (curr : Int) :
    Int × Except PyError (Option String) :=
  match parse_line line with
  | .error e => (curr, .error e)
  | .ok fields =>
      match dictGet fields "kind" with
      | .error e => (curr, .error e)
      | .ok kindv =>
          let curr := if !pyKindEq kindv .COMMENT then curr + curr else curr
          if pyKindEq kindv .FULL || pyTruthy (.srcKind .SYMBOLIC) then
            match resolve_line fields (.dict sym_table) (.int curr) with
            | .error e => (curr, .error e)
            | .ok new_line => (curr, .ok (some new_line))
          else
            (curr, .ok none)

/-- The per-line error report of `transform_lines`: the `except` branches
print `Syntax error in line {lnum}: {line}` for the module's
`SyntaxError`, `Unknown label in line {lnum}: {e}` for a `KeyError`
(whose `str` is the quoted key), and `Exception encountered in line
{lnum}: {e}` for anything else. -/
def errReport (e : PyError) (lnum : Nat) (line : String) : String :=
  match e with
  | .synErr _ => "Syntax error in line " ++ toString lnum ++ ": " ++ line
  | .keyErr k => "Unknown label in line " ++ toString lnum ++ ": '" ++ k ++ "'"
  | .typeErr m => "Exception encountered in line " ++ toString lnum ++ ": " ++ m
  | .nameErr m => "Exception encountered in line " ++ toString lnum ++ ": " ++ m

/-- The observable outcome of `transform_lines`: the lines written to the
object file, the error reports printed (debug prints are not modelled), the
final error count, and `some 1` when `sys.exit(1)` ended the run. -/
structure XformResult where
  output : List String
  reports : List String
  errorCount : Nat
  exitCode : Option Nat
deriving DecidableEq, Repr

/-- The loop of `transform_lines`: process each line with `lineBody`,
catching any exception (counting it and reporting it with the line number),
then — on every iteration — abandon with `sys.exit(1)` as soon as
`error_count > ERROR_LIMIT`. -/
def xformGo (tbl : Dict) : List String → Nat → Int → XformResult → XformResult
  | [], _, _, st => st
  | line :: rest, lnum, curr, st =>
      let r := lineBody tbl line curr
      let st' :=
        match r.2 with
        | .ok (some nl) => { st with output := st.output ++ [nl] }
        | .ok none => st
        | .error e =>
            { st with reports := st.reports ++ [errReport e lnum line],
                      errorCount := st.errorCount + 1 }
      if st'.errorCount > ERROR_LIMIT then
        { st' with exitCode := some 1 }
      else
        xformGo tbl rest (lnum + 1) r.1 st'

/-- `transform_lines` (assembler pass 2): iterate over the lines with
`error_count = 0` and `curr_addr = 0`. -/
def transform_lines (lines : List String) (sym_table : Dict) : XformResult :=
  xformGo sym_table lines 0 0 ⟨[], [], 0, none⟩

/-! ## Assembler lemmas -/

/-- Every dict `parse_line` returns is the group dict of one of the four
patterns with its `kind` entry set. -/
theorem parse_line_shape {line : String} {d : Dict} (h : parse_line line = .ok d) :
    (∃ g, d = dictSet (fullDict g) "kind" (.srcKind .FULL)) ∨
    (∃ g, d = dictSet (dataDict g) "kind" (.srcKind .DATA)) ∨
    (∃ g, d = dictSet (commentDict g) "kind" (.srcKind .COMMENT)) ∨
    (∃ g, d = dictSet (symbolicDict g) "kind" (.srcKind .SYMBOLIC)) := by
  unfold parse_line at h
  cases hf : matchFull line.toList with
  | some g =>
      rw [hf] at h; simp only [Except.ok.injEq] at h; exact Or.inl ⟨g, h.symm⟩
  | none =>
  rw [hf] at h
  cases hd : matchData line.toList with
  | some g =>
      rw [hd] at h; simp only [Except.ok.injEq] at h; exact Or.inr (Or.inl ⟨g, h.symm⟩)
  | none =>
  rw [hd] at h
  cases hc : matchComment line.toList with
  | some g =>
      rw [hc] at h; simp only [Except.ok.injEq] at h
      exact Or.inr (Or.inr (Or.inl ⟨g, h.symm⟩))
  | none =>
  rw [hc] at h
  cases hs : matchSymbolic line.toList with
  | some g =>
      rw [hs] at h; simp only [Except.ok.injEq] at h
      exact Or.inr (Or.inr (Or.inr ⟨g, h.symm⟩))
  | none => rw [hs] at h; cases h

/-- Every line `transform_lines` processes ends in an exception — a
`SyntaxError` from `parse_line`, a `KeyError` on `fields["symbol"]` for
FULL/DATA/COMMENT dicts, or a `TypeError` from `x in sym_table` with the
swapped (integer) `sym_table` argument for SYMBOLIC dicts — and the
exception does not depend on the address counter. -/
theorem lineBody_errors (tbl : Dict) (line : String) (curr : Int) :
    ∃ e, (lineBody tbl line curr).2 = .error e ∧ (lineBody tbl line 0).2 = .error e := by
  unfold lineBody
  cases hp : parse_line line with
  | error e => exact ⟨e, rfl, rfl⟩
  | ok fields =>
      rcases parse_line_shape hp with ⟨g, rfl⟩ | ⟨g, rfl⟩ | ⟨g, rfl⟩ | ⟨g, rfl⟩
      · exact ⟨.keyErr "symbol", rfl, rfl⟩
      · exact ⟨.keyErr "symbol", rfl, rfl⟩
      · exact ⟨.keyErr "symbol", rfl, rfl⟩
      · exact ⟨.typeErr "argument of type 'int' is not iterable", rfl, rfl⟩

/-- The exception raised while processing a line in pass 2 (well defined by
`lineBody_errors`). -/
def lineErrOf (tbl : Dict) (line : String) : PyError :=
  match (lineBody tbl line 0).2 with
  | .error e => e
  | .ok _ => .typeErr "unreachable"

/-- `lineBody` always raises `lineErrOf`. -/
theorem lineBody_run (tbl : Dict) (line : String) (curr : Int) :
    (lineBody tbl line curr).2 = .error (lineErrOf tbl line) := by
  obtain ⟨e, h1, h0⟩ := lineBody_errors tbl line curr
  rw [h1]
  unfold lineErrOf
  rw [h0]

/-- Closed form of the pass-2 loop from any non-exited state: it processes
`min (length) (budget left)` further lines, appends one report per
processed line (each naming its absolute line number), adds one error per
processed line, and exits with code 1 exactly when the count reaches
`ERROR_LIMIT + 1`. -/
theorem xformGo_spec (tbl : Dict) (lines : List String) :
    ∀ (lnum : Nat) (curr : Int) (st : XformResult),
      st.errorCount ≤ ERROR_LIMIT → st.exitCode = none →
      xformGo tbl lines lnum curr st =
        { output := st.output,
          reports := st.reports
            ++ (List.range (min lines.length (ERROR_LIMIT + 1 - st.errorCount))).map
                (fun j => errReport (lineErrOf tbl (lines.getD j "")) (lnum + j)
                  (lines.getD j "")),
          errorCount := st.errorCount
            + min lines.length (ERROR_LIMIT + 1 - st.errorCount),
          exitCode :=
            if st.errorCount + min lines.length (ERROR_LIMIT + 1 - st.errorCount)
                = ERROR_LIMIT + 1 then some 1 else none } := by
  induction lines with
  | nil =>
      intro lnum curr st h1 h2
      obtain ⟨o, r, ec, ex⟩ := st
      simp only at h1 h2
      subst h2
      simp only [xformGo, List.length_nil, Nat.zero_min, List.range_zero, List.map_nil,
        List.append_nil, Nat.add_zero, XformResult.mk.injEq]
      refine ⟨trivial, trivial, trivial, ?_⟩
      rw [if_neg (by simp only [ERROR_LIMIT] at h1 ⊢; omega)]
  | cons line rest ih =>
      intro lnum curr st h1 h2
      rw [xformGo]
      rw [lineBody_run tbl line curr]
      obtain ⟨o, r, ec, ex⟩ := st
      simp only at h1 h2
      subst h2
      by_cases hec : ec = ERROR_LIMIT
      · subst hec
        rw [if_pos (by simp only [gt_iff_lt]; omega)]
        have hmin : min (rest.length + 1) (ERROR_LIMIT + 1 - ERROR_LIMIT) = 1 := by
          simp only [ERROR_LIMIT]; omega
        simp only [List.length_cons, hmin]
        simp [XformResult.mk.injEq, List.range_succ]
      · have hlt : ec < ERROR_LIMIT := lt_of_le_of_ne h1 hec
        rw [if_neg (by simp only [gt_iff_lt]; omega)]
        rw [ih (lnum + 1) (lineBody tbl line curr).1
          ⟨o, r ++ [errReport (lineErrOf tbl line) lnum line], ec + 1, none⟩
          (by simp only; omega) rfl]
        have hmin : min (rest.length + 1) (ERROR_LIMIT + 1 - ec)
            = min rest.length (ERROR_LIMIT + 1 - (ec + 1)) + 1 := by
          simp only [ERROR_LIMIT] at hlt ⊢; omega
        simp only [List.length_cons, hmin, XformResult.mk.injEq]
        refine ⟨trivial, ?_, by omega, ?_⟩
        · rw [List.range_succ_eq_map, List.map_cons, List.map_map, List.append_assoc]
          simp only [List.getD_cons_zero, Nat.add_zero, List.singleton_append]
          congr 1
          congr 1
          apply List.map_congr_left
          intro j hj
          simp only [Function.comp_apply, List.getD_cons_succ]
          have : lnum + (j + 1) = lnum + 1 + j := by omega
          rw [this]
        · simp only [show ec + 1 + min rest.length (ERROR_LIMIT + 1 - (ec + 1))
              = ec + (min rest.length (ERROR_LIMIT + 1 - (ec + 1)) + 1) from by omega]

/-! ## Claim theorems: assembler -/

/-- C2 (refuting evaluation): on the spec's own example the code's
`build_table` returns a table whose keys are the literal strings `'label'`
and `'position'` — it maps the *string* `"label"` to `"loop"` and
`"position"` to 0, records nothing under the key `"loop"`, and its address
counter (updated by `curr_addr += curr_addr`) never leaves 0.  The claimed
mapping `loop → 0` is absent. -/
theorem build_table_records_no_labels :
    build_table ["loop: ADD r1,r1,r2[0]", "JUMP loop"]
        = Except.ok [("label", PyVal.str "loop"), ("position", PyVal.int 0)] ∧
      dictHasKey [("label", PyVal.str "loop"), ("position", PyVal.int 0)] "loop" = false :=
  ⟨rfl, rfl⟩

/-- C6 (refuting evaluation): a FULL line is not emitted unchanged by
pass 2.  The dispatch `fields["kind"] == AsmSrcKind.FULL or
AsmSrcKind.SYMBOLIC` is always truthy, so the FULL line is sent to
`resolve_line` (with swapped arguments), which raises `KeyError('symbol')`;
the line is counted and reported as an error and nothing is written to the
output. -/
theorem transform_full_line_not_passed_through :
    transform_lines ["ADD r1,r1,r2[0]"] []
      = ⟨[], ["Unknown label in line 0: 'symbol'"], 1, none⟩ :=
  rfl

/-- The field dict `parse_line` produces for the SYMBOLIC line
`JUMP loop`. -/
def jumpLoopFields : Dict :=
  [("label", PyVal.none), ("opcode", PyVal.str "JUMP"), ("predicate", PyVal.none),
   ("target", PyVal.none), ("symbol", PyVal.str "loop"), ("comment", PyVal.none),
   ("kind", PyVal.srcKind .SYMBOLIC)]

/-- C7 (refuting evaluation): resolving `JUMP loop` one word after `loop`'s
definition, with a symbol table in which `loop` is present at address 0,
does not produce an `ADD` into the PC register: `resolve_line` reads the
fixed keys `sym_table['position']` (and later `sym_table['label']`) instead
of the symbol's entry and raises `KeyError('position')`. -/
theorem resolve_jump_line_fails :
    parse_line "JUMP loop" = Except.ok jumpLoopFields ∧
      resolve_line jumpLoopFields (PyVal.int 1) (PyVal.dict [("loop", PyVal.int 0)])
        = Except.error (PyError.keyErr "position") :=
  ⟨rfl, rfl⟩

/-- C8: every per-line failure in pass 2 increments the shared error count
by one and appends one report carrying the offending line number, while
processing continues; the run exits with the non-zero code 1 exactly when
the count exceeds `ERROR_LIMIT`, and once that happens any further input
lines are not processed (appending a suffix changes nothing). -/
theorem transform_error_budget (lines : List String) (tbl : Dict) :
    (transform_lines lines tbl).errorCount = min lines.length (ERROR_LIMIT + 1) ∧
    (transform_lines lines tbl).reports
        = (List.range (min lines.length (ERROR_LIMIT + 1))).map
            (fun n => errReport (lineErrOf tbl (lines.getD n "")) n (lines.getD n "")) ∧
    ((transform_lines lines tbl).exitCode = some 1 ↔ ERROR_LIMIT < lines.length) ∧
    (∀ suf, ERROR_LIMIT < lines.length →
        transform_lines (lines ++ suf) tbl = transform_lines lines tbl) := by
  have h0 := xformGo_spec tbl lines 0 0 ⟨[], [], 0, none⟩ (by simp) rfl
  refine ⟨?_, ?_, ?_, ?_⟩
  · unfold transform_lines
    rw [h0]
    dsimp only
    simp
  · unfold transform_lines
    rw [h0]
    dsimp only
    simp
  · unfold transform_lines
    rw [h0]
    dsimp only
    simp only [Nat.sub_zero, Nat.zero_add]
    constructor
    · intro h
      by_contra hlen
      rw [if_neg (by simp only [ERROR_LIMIT] at hlen ⊢; omega)] at h
      cases h
    · intro hlen
      rw [if_pos (by simp only [ERROR_LIMIT] at hlen ⊢; omega)]
  · intro suf hlen
    have hA := xformGo_spec tbl (lines ++ suf) 0 0 ⟨[], [], 0, none⟩ (by simp) rfl
    unfold transform_lines
    rw [hA, h0]
    have hminA : min (lines ++ suf).length (ERROR_LIMIT + 1 - 0) = ERROR_LIMIT + 1 := by
      simp only [List.length_append, ERROR_LIMIT] at hlen ⊢
      omega
    have hminB : min lines.length (ERROR_LIMIT + 1 - 0) = ERROR_LIMIT + 1 := by
      simp only [ERROR_LIMIT] at hlen ⊢
      omega
    rw [hminA, hminB]
    dsimp only
    simp only [XformResult.mk.injEq]
    refine ⟨trivial, ?_, trivial, trivial⟩
    congr 1
    apply List.map_congr_left
    intro j hj
    simp only [List.mem_range] at hj
    have hjl : j < lines.length := by simp only [ERROR_LIMIT] at hlen hj; omega
    rw [List.getD_append _ _ _ _ hjl]

/-- Witness for C8: six invalid lines exhaust the budget, the run exits
with code 1, and a seventh line appended after them changes nothing. -/
theorem transform_error_budget_witness :
    (transform_lines ["???", "???", "???", "???", "???", "???"] []).exitCode = some 1 ∧
      transform_lines (["???", "???", "???", "???", "???", "???"] ++ ["HALT r0,r0,r0"]) []
        = transform_lines ["???", "???", "???", "???", "???", "???"] [] :=
  ⟨(transform_error_budget ["???", "???", "???", "???", "???", "???"] []).2.2.1.mpr
      (by decide),
   (transform_error_budget ["???", "???", "???", "???", "???", "???"] []).2.2.2
      ["HALT r0,r0,r0"] (by decide)⟩

end DuckMachine
